import Mathlib

/-!
# bris.kr URL shortener — verification of the core allocation/resolution logic

Shallow embedding of `src/app.py` (the Flask application of the
`tillo13/briskr_shorturl` repository).  The durable store (PostgreSQL table
`briskr.urls`) is modelled as a list of rows; every helper of `app.py` that
talks to the database becomes a Lean function over that list.  Randomness
(`random.choices`) is modelled by explicit seed streams, timestamps by `Nat`
parameters, and database unavailability by a boolean on the connection.
-/

namespace Briskr

/-- Python `str.lower()` on a single character, for the ASCII range used by the
application (codes are ASCII: the alphabet is `a-z0-9` and lookups lowercase
the URL path segment). `65`/`90` are the codepoints of `A`/`Z`. -/
def lowerChar (c : Char) : Char :=
  if 65 ≤ c.toNat ∧ c.toNat ≤ 90 then Char.ofNat (c.toNat + 32) else c

/-- Python `str.lower()` on a string (ASCII range). -/
def pyLower (s : String) : String :=
  String.mk (s.data.map lowerChar)

/-- Python whitespace characters recognised by `str.strip()`. -/
def isPySpace (c : Char) : Bool :=
  c = ' ' || c = '\t' || c = '\n' || c = '\r' || c = '\x0b' || c = '\x0c'

/-- Python `str.strip()`: drop leading and trailing whitespace. -/
def pyStrip (s : String) : String :=
  String.mk (((s.data.dropWhile isPySpace).reverse.dropWhile isPySpace).reverse)

/-- Decision `listStarts s p` of whether `p` starts the list `s`. -/
def listStarts : List Char → List Char → Bool
  | _, [] => true
  | [], _ :: _ => false
  | c :: cs, d :: ds => c = d && listStarts cs ds

/-- Python `str.startswith(p)`. -/
def pyStarts (s p : String) : Bool := listStarts s.data p.data

/-- The `MIN_CODE_LENGTH` constant of `src/app.py`. -/
def MIN_CODE_LENGTH : Nat := 2

/-- The `MAX_CODE_LENGTH` constant of `src/app.py`. -/
def MAX_CODE_LENGTH : Nat := 6

/-- A row of the `briskr.urls` table.  `id` is the surrogate key assigned by
the store, timestamps are abstract `Nat` instants, `last_clicked` and
`created_by_ip` are nullable columns. -/
structure Link where
  id : Nat
  short_code : String
  long_url : String
  click_count : Nat
  created_at : Nat
  last_clicked : Option Nat
  created_by_ip : Option String
deriving Repr, DecidableEq

/-- The `briskr.urls` table, rows in insertion order. -/
abbrev Store := List Link

/-- A database connection target: `up` is whether the durable store is
reachable (a failed `get_db_connection`/query raises in Python), `store` its
current contents. -/
structure DB where
  up : Bool
  store : Store
deriving Repr, DecidableEq

/-- Store-layer failures: a violated uniqueness constraint on insert, or an
unreachable database (any connection/query exception). -/
inductive StoreErr where
  | duplicateCode
  | unavailable
deriving Repr, DecidableEq

/-- The query `SELECT 1 FROM briskr.urls WHERE short_code = %s` followed by `fetchone`:
does any row carry exactly this code string? -/
def code_exists (s : Store) (code : String) : Bool :=
  s.any (fun l => l.short_code == code)

/-- The query `SELECT ... FROM briskr.urls WHERE short_code = %s` with `fetchone`:
the first row carrying exactly this code string. -/
def lookupCode (s : Store) (code : String) : Option Link :=
  s.find? (fun l => l.short_code == code)

/-- The alphabet `chars = string.ascii_lowercase + string.digits` of `generate_short_code`. -/
def alphabetChars : List Char := "abcdefghijklmnopqrstuvwxyz0123456789".data

/-- The function `generate_short_code(length)` of `src/app.py` (lines 100-103):
`random.choices(chars, k=length)` modelled by a seed stream `seed`, character
`i` of the result being the `seed i % 36`-th character of the 36-character
alphabet. -/
def generate_short_code (seed : Nat → Nat) (length : Nat) : String :=
  String.mk ((List.range length).map (fun i => alphabetChars.getD (seed i % 36) 'a'))

/-- The inner `for _ in range(10)` loop of `find_available_code` at one code
length: up to 10 random candidates, the first one not present in the store is
returned immediately. -/
def tierSearch (seeds : Nat → Nat → Nat → Nat) (s : Store) (len : Nat) : Option String :=
  (List.range 10).findSome? (fun a =>
    let code := generate_short_code (seeds len a) len
    if code_exists s code then none else some code)

/-- The function `find_available_code()` of `src/app.py` (lines 106-122): escalate the code
length from `MIN_CODE_LENGTH` to `MAX_CODE_LENGTH`, trying 10 random
candidates per length; if every attempt collides, return one further random
code of the maximum length without checking it.  `seeds l a` is the character
seed stream of the draw at length `l`, attempt `a`; the final fallback draw
uses the fresh stream `seeds (MAX_CODE_LENGTH + 1) 0`. -/
def find_available_code (seeds : Nat → Nat → Nat → Nat) (s : Store) : String :=
  match (List.range' MIN_CODE_LENGTH (MAX_CODE_LENGTH + 1 - MIN_CODE_LENGTH)).findSome?
      (tierSearch seeds s) with
  | some code => code
  | none => generate_short_code (seeds (MAX_CODE_LENGTH + 1) 0) MAX_CODE_LENGTH

/-- Modelled from the spec: the `briskr.urls` table definition (the storage
layer itself) is not under `src/` — `src/app.py` only issues SQL against an
externally provisioned table.  Spec section 4.3 gives the store contract:
`insert(code, long_url, created_by_ip?) -> Link` "fails with `DuplicateCode`
if `code` already present (enforced by a uniqueness constraint at the storage
layer)", and the columns default to `click_count = 0`, `created_at = now`,
`last_clicked = NULL`, with a store-assigned surrogate `id`. -/
def insert_row (s : Store) (code url : String) (ip : Option String) (now : Nat) :
    Except StoreErr (Store × Link) :=
  if code_exists s code then .error .duplicateCode
  else
    let link : Link := ⟨s.length, code, url, 0, now, none, ip⟩
    .ok (s ++ [link], link)

/-- Outcome of `create_short_url`: the returned dict is either the created
row or the in-band `{"error": "Code '...' already exists"}` dict. -/
inductive CreateResult where
  | created (link : Link)
  | codeTaken (code : String)
deriving Repr, DecidableEq

/-- The `INSERT ... RETURNING` tail of `create_short_url`: insert the chosen
code and wrap the returned row; a store-level failure propagates. -/
def finishInsert (s : Store) (code url : String) (ip : Option String) (now : Nat) :
    Except StoreErr (Store × CreateResult) :=
  match insert_row s code url ip now with
  | .ok (s', link) => .ok (s', .created link)
  | .error e => .error e

/-- The function `create_short_url(long_url, custom_code, client_ip)` of `src/app.py`
(lines 125-159).  `if custom_code:` is Python truthiness, so an empty string
falls through to the random path.  A supplied custom code is lowercased,
checked with a plain `SELECT`, and rejected in-band when present; otherwise
the chosen code is inserted. -/
def create_short_url (db : DB) (long_url : String) (custom_code : Option String)
    (client_ip : Option String) (seeds : Nat → Nat → Nat → Nat) (now : Nat) :
    Except StoreErr (Store × CreateResult) :=
  if db.up then
    match custom_code with
    | some c =>
      if c = "" then
        finishInsert db.store (find_available_code seeds db.store) long_url client_ip now
      else if code_exists db.store (pyLower c) then .ok (db.store, .codeTaken c)
      else finishInsert db.store (pyLower c) long_url client_ip now
    | none => finishInsert db.store (find_available_code seeds db.store) long_url client_ip now
  else .error .unavailable

/-- The function `get_url_by_code(short_code)` of `src/app.py` (lines 162-173). -/
def get_url_by_code (db : DB) (short_code : String) : Except StoreErr (Option Link) :=
  if db.up then .ok (lookupCode db.store (pyLower short_code)) else .error .unavailable

/-- The `SET` clause of the `UPDATE` in `get_long_url`:
`click_count = click_count + 1, last_clicked = CURRENT_TIMESTAMP`. -/
def bumpClick (now : Nat) (l : Link) : Link :=
  { l with click_count := l.click_count + 1, last_clicked := some now }

/-- One row of the `UPDATE ... WHERE short_code = lc` statement: rows whose
code matches are bumped, all others are untouched. -/
def clickUpdate (lc : String) (now : Nat) (l : Link) : Link :=
  if l.short_code = lc then bumpClick now l else l

/-- The function `get_long_url(short_code)` of `src/app.py` (lines 176-194): a single
`UPDATE ... RETURNING long_url` bumps every row whose code equals the
lowercased argument and returns the (unchanged by the update) `long_url` of
the first such row, or `none` when no row matched. -/
def get_long_url (db : DB) (short_code : String) (now : Nat) :
    Except StoreErr (Store × Option String) :=
  if db.up then
    let lc := pyLower short_code
    .ok (db.store.map (clickUpdate lc now),
         (lookupCode db.store lc).map (fun l => l.long_url))
  else .error .unavailable

/-- The function `get_stats_by_ip(client_ip)` of `src/app.py` (lines 197-211): rows created
by this IP, newest first (rows are kept in insertion order, so `reverse`
realises `ORDER BY created_at DESC`), limited to 100. -/
def get_stats_by_ip (db : DB) (client_ip : String) : Except StoreErr (List Link) :=
  if db.up then
    .ok (((db.store.filter (fun l => l.created_by_ip == some client_ip)).reverse).take 100)
  else .error .unavailable

/-- The function `get_url_count_by_ip(client_ip)` of `src/app.py` (lines 214-226). -/
def get_url_count_by_ip (db : DB) (client_ip : String) : Except StoreErr Nat :=
  if db.up then
    .ok ((db.store.filter (fun l => l.created_by_ip == some client_ip)).length)
  else .error .unavailable

/-- The function `get_total_urls()` of `src/app.py` (lines 229-238). -/
def get_total_urls (db : DB) : Except StoreErr Nat :=
  if db.up then .ok db.store.length else .error .unavailable

/-- The data the home page template receives from the stats block. -/
structure StatsView where
  stats : List Link
  your_url_count : Nat
  total_urls : Nat
deriving Repr, DecidableEq

/-- The `try/except` stats block of the `home` route (`src/app.py` lines
362-371): the three store reads, degraded together to empty/zero when any of
them raises. -/
def home_stats (db : DB) (client_ip : String) : StatsView :=
  match get_stats_by_ip db client_ip, get_url_count_by_ip db client_ip, get_total_urls db with
  | .ok s, .ok y, .ok t => ⟨s, y, t⟩
  | _, _, _ => ⟨[], 0, 0⟩

/-- The JSON body of `GET /api/stats`. -/
structure ApiStats where
  your_urls : Nat
  total_urls : Nat
  urls : List Link
deriving Repr, DecidableEq

/-- The `api_stats` route of `src/app.py` (lines 455-463): the three store
reads with no exception handling — any store failure propagates out of the
request handler. -/
def api_stats (db : DB) (client_ip : String) : Except StoreErr ApiStats := do
  let y ← get_url_count_by_ip db client_ip
  let t ← get_total_urls db
  let u ← get_stats_by_ip db client_ip
  return ⟨y, t, u⟩

/-- The reserved path segments of the `redirect_url` route. -/
def RESERVED_CODES : List String := ["favicon.ico", "robots.txt", "health", "api"]

/-- HTTP outcome of the `redirect_url` route. -/
inductive RedirectResponse where
  | redirect302 (url : String)
  | notFound404
deriving Repr, DecidableEq

/-- The `redirect_url(short_code)` route of `src/app.py` (lines 404-430): the
raw path segment is compared (without normalisation) against the reserved
names, then `get_long_url` resolves and bumps the code. -/
def redirect_url (db : DB) (short_code : String) (now : Nat) :
    Except StoreErr (Store × RedirectResponse) :=
  if short_code ∈ RESERVED_CODES then .ok (db.store, .notFound404)
  else
    match get_long_url db short_code now with
    | .ok (s', some url) => .ok (s', .redirect302 url)
    | .ok (s', none) => .ok (s', .notFound404)
    | .error e => .error e

/-- Outcome of the two shorten routes: the missing-URL rejection or the
`create_short_url` result. -/
inductive ShortenOutcome where
  | missingUrl
  | result (r : CreateResult)
deriving Repr, DecidableEq

/-- The scheme rewrite shared verbatim by the `shorten` and `api_shorten`
routes: `if not long_url.startswith(('http://', 'https://')):
long_url = 'https://' + long_url`. -/
def normalizeScheme (u : String) : String :=
  if pyStarts u "http://" || pyStarts u "https://" then u else "https://" ++ u

/-- The `shorten` route of `src/app.py` (lines 381-401): strip the form
fields, reject a missing URL without touching the store, rewrite the scheme,
and call `create_short_url`. -/
def shorten (db : DB) (urlField codeField : String) (client_ip : String)
    (seeds : Nat → Nat → Nat → Nat) (now : Nat) :
    Except StoreErr (Store × ShortenOutcome) :=
  let long_url := pyStrip urlField
  let custom_code := if pyStrip codeField = "" then none else some (pyStrip codeField)
  if long_url = "" then .ok (db.store, .missingUrl)
  else
    match create_short_url db (normalizeScheme long_url) custom_code (some client_ip) seeds now with
    | .ok (s', r) => .ok (s', .result r)
    | .error e => .error e

/-- The `api_shorten` route of `src/app.py` (lines 437-452): same stripping,
missing-URL rejection, scheme rewrite and `create_short_url` call as
`shorten`, on the JSON fields. -/
def api_shorten (db : DB) (urlField codeField : String) (client_ip : String)
    (seeds : Nat → Nat → Nat → Nat) (now : Nat) :
    Except StoreErr (Store × ShortenOutcome) :=
  let long_url := pyStrip urlField
  let custom_code := if pyStrip codeField = "" then none else some (pyStrip codeField)
  if long_url = "" then .ok (db.store, .missingUrl)
  else
    match create_short_url db (normalizeScheme long_url) custom_code (some client_ip) seeds now with
    | .ok (s', r) => .ok (s', .result r)
    | .error e => .error e

/-- The store-mutating operations of the service: an allocation
(`create_short_url`) or a resolution (`get_long_url`). -/
inductive Op where
  | createOp (long_url : String) (custom_code : Option String) (client_ip : Option String)
      (seeds : Nat → Nat → Nat → Nat) (now : Nat)
  | resolveOp (code : String) (now : Nat)

/-- Effect of one operation on a reachable store; a failed operation commits
nothing and leaves the table as it was. -/
def step (s : Store) : Op → Store
  | .createOp long_url custom_code client_ip seeds now =>
    match create_short_url ⟨true, s⟩ long_url custom_code client_ip seeds now with
    | .ok (s', _) => s'
    | .error _ => s
  | .resolveOp code now =>
    match get_long_url ⟨true, s⟩ code now with
    | .ok (s', _) => s'
    | .error _ => s

/-- A whole history of operations applied in order. -/
def runOps (s : Store) (ops : List Op) : Store := ops.foldl step s

/-- Whether a resolution attempt found (and hence bumped) a row. -/
def resolveSucceeded (s : Store) (code : String) (now : Nat) : Bool :=
  match get_long_url ⟨true, s⟩ code now with
  | .ok (_, some _) => true
  | _ => false

/-- Number of successful resolutions of the (lowercase) code `c` along a
history starting from store `s`. -/
def succResolves (c : String) : Store → List Op → Nat
  | _, [] => 0
  | s, op :: ops =>
    (match op with
     | .resolveOp code now =>
       if pyLower code = c && resolveSucceeded s code now then 1 else 0
     | _ => 0) + succResolves c (step s op) ops

/-- The `click_count` of the first row carrying exactly this code. -/
def clickCountOf (s : Store) (c : String) : Option Nat :=
  (lookupCode s c).map (fun l => l.click_count)

/-- The `last_clicked` of the first row carrying exactly this code. -/
def lastClickedOf (s : Store) (c : String) : Option (Option Nat) :=
  (lookupCode s c).map (fun l => l.last_clicked)

/-- Number of rows carrying exactly this code. -/
def rowCount (s : Store) (c : String) : Nat :=
  (s.filter (fun l => l.short_code == c)).length

/-- The store invariant: every stored code is already lowercase-normalised,
and the lowercase-normalised codes of any two distinct rows differ. -/
def StoreInv (s : Store) : Prop :=
  (∀ l ∈ s, pyLower l.short_code = l.short_code) ∧
  s.Pairwise (fun a b => pyLower a.short_code ≠ pyLower b.short_code)

/-- The flat candidate list of the random search, in the spec's words
(spec section 4.2): "Starting at a minimum length (2), for each length up to
a maximum (6), attempt up to 10 randomly generated candidates", in that
order. -/
def specCandidates (seeds : Nat → Nat → Nat → Nat) : List String :=
  (List.range' MIN_CODE_LENGTH (MAX_CODE_LENGTH + 1 - MIN_CODE_LENGTH)).flatMap
    (fun len => (List.range 10).map (fun a => generate_short_code (seeds len a) len))

/-! ## Basic lemmas about the Python string primitives -/

theorem toNat_ofNat_valid (n : Nat) (h : n.isValidChar) : (Char.ofNat n).toNat = n := by
  simp only [Char.ofNat, dif_pos h, Char.ofNatAux, Char.toNat]
  simp [UInt32.toNat, BitVec.toNat_ofNatLt]

theorem lowerChar_idem (c : Char) : lowerChar (lowerChar c) = lowerChar c := by
  unfold lowerChar
  by_cases h : 65 ≤ c.toNat ∧ c.toNat ≤ 90
  · rw [if_pos h]
    have hv : (c.toNat + 32).isValidChar := by
      left
      omega
    have ht : (Char.ofNat (c.toNat + 32)).toNat = c.toNat + 32 := toNat_ofNat_valid _ hv
    rw [if_neg]
    intro hcon
    omega
  · rw [if_neg h, if_neg h]

theorem pyLower_idem (s : String) : pyLower (pyLower s) = pyLower s := by
  unfold pyLower
  simp [List.map_map, Function.comp_def, lowerChar_idem]

theorem lowerChar_fixed_of_alphabet : ∀ c ∈ alphabetChars, lowerChar c = c := by decide

theorem pyLower_fixed_of_alphabet (s : String)
    (h : ∀ c ∈ s.data, c ∈ alphabetChars) : pyLower s = s := by
  unfold pyLower
  have : s.data.map lowerChar = s.data.map id :=
    List.map_congr_left (fun c hc => lowerChar_fixed_of_alphabet c (h c hc))
  rw [this, List.map_id]

/-! ## The random code generator -/

theorem generate_length (seed : Nat → Nat) (n : Nat) :
    (generate_short_code seed n).length = n := by
  simp [generate_short_code, String.length]

theorem generate_mem_alphabet (seed : Nat → Nat) (n : Nat) :
    ∀ c ∈ (generate_short_code seed n).data, c ∈ alphabetChars := by
  intro c hc
  simp only [generate_short_code] at hc
  obtain ⟨i, _, hci⟩ := List.mem_map.mp hc
  have hlt : seed i % 36 < alphabetChars.length := Nat.mod_lt _ (by decide)
  rw [List.getD_eq_getElem _ _ hlt] at hci
  exact hci ▸ List.getElem_mem hlt

theorem pyLower_generate (seed : Nat → Nat) (n : Nat) :
    pyLower (generate_short_code seed n) = generate_short_code seed n :=
  pyLower_fixed_of_alphabet _ (generate_mem_alphabet seed n)

/-! ## Lookup and existence lemmas -/

theorem code_exists_false_iff (s : Store) (c : String) :
    code_exists s c = false ↔ ∀ l ∈ s, l.short_code ≠ c := by
  simp [code_exists, List.any_eq_true]

theorem lookupCode_eq_none_iff (s : Store) (c : String) :
    lookupCode s c = none ↔ ∀ l ∈ s, l.short_code ≠ c := by
  simp [lookupCode, List.find?_eq_none]

theorem lookupCode_code {s : Store} {c : String} {l : Link}
    (h : lookupCode s c = some l) : l.short_code = c := by
  have := List.find?_some h
  simpa using this

theorem lookupCode_mem {s : Store} {c : String} {l : Link}
    (h : lookupCode s c = some l) : l ∈ s :=
  List.mem_of_find?_eq_some h

theorem lookupCode_append_left {s : Store} {c : String} {l : Link} (t : Store)
    (h : lookupCode s c = some l) : lookupCode (s ++ t) c = some l := by
  unfold lookupCode at h ⊢
  rw [List.find?_append, h]
  rfl

theorem lookupCode_append_none {s : Store} {c : String} (t : Store)
    (h : lookupCode s c = none) : lookupCode (s ++ t) c = lookupCode t c := by
  unfold lookupCode at h ⊢
  rw [List.find?_append, h]
  rfl

theorem lookupCode_map_preserving {s : Store} {c : String} {f : Link → Link}
    (hf : ∀ l, (f l).short_code = l.short_code) :
    lookupCode (s.map f) c = (lookupCode s c).map f := by
  unfold lookupCode
  rw [List.find?_map]
  have hcomp : ((fun l => l.short_code == c) ∘ f) = (fun l : Link => l.short_code == c) := by
    funext l
    simp [Function.comp, hf]
  rw [hcomp]

theorem clickUpdate_code (lc : String) (now : Nat) (l : Link) :
    (clickUpdate lc now l).short_code = l.short_code := by
  unfold clickUpdate bumpClick
  split <;> rfl

theorem map_clickUpdate_no_match {s : Store} {lc : String} (now : Nat)
    (h : ∀ l ∈ s, l.short_code ≠ lc) : s.map (clickUpdate lc now) = s := by
  have : s.map (clickUpdate lc now) = s.map id := by
    refine List.map_congr_left (fun l hl => ?_)
    simp [clickUpdate, h l hl]
  rw [this, List.map_id]

/-! ## Behaviour of `get_long_url` on a reachable store -/

theorem get_long_url_up (s : Store) (code : String) (now : Nat) :
    get_long_url ⟨true, s⟩ code now =
      .ok (s.map (clickUpdate (pyLower code) now),
           (lookupCode s (pyLower code)).map (fun l => l.long_url)) := by
  rfl

theorem resolve_found {s : Store} {code : String} {l : Link} (now : Nat)
    (h : lookupCode s (pyLower code) = some l) :
    get_long_url ⟨true, s⟩ code now =
      .ok (s.map (clickUpdate (pyLower code) now), some l.long_url) ∧
    lookupCode (s.map (clickUpdate (pyLower code) now)) (pyLower code) =
      some (bumpClick now l) ∧
    ∀ d, d ≠ pyLower code →
      lookupCode (s.map (clickUpdate (pyLower code) now)) d = lookupCode s d := by
  refine ⟨by rw [get_long_url_up, h]; rfl, ?_, ?_⟩
  · rw [lookupCode_map_preserving (clickUpdate_code _ now), h]
    simp [clickUpdate, lookupCode_code h]
  · intro d hd
    rw [lookupCode_map_preserving (clickUpdate_code _ now)]
    cases hfind : lookupCode s d with
    | none => rfl
    | some l' =>
      have : (clickUpdate (pyLower code) now l') = l' := by
        simp [clickUpdate, lookupCode_code hfind, hd]
      simp [this]

theorem resolve_miss {s : Store} {code : String} (now : Nat)
    (h : lookupCode s (pyLower code) = none) :
    get_long_url ⟨true, s⟩ code now = .ok (s, none) := by
  rw [get_long_url_up, h,
      map_clickUpdate_no_match now ((lookupCode_eq_none_iff _ _).mp h)]
  rfl

/-! ## Characterising `find_available_code` -/

theorem findSome?_guard_eq_find? {α : Type} (f : Nat → α) (p : α → Bool) (l : List Nat) :
    l.findSome? (fun a => let c := f a; if p c then none else some c) =
      (l.map f).find? (fun c => !p c) := by
  induction l with
  | nil => rfl
  | cons a as ih =>
    simp only [List.findSome?_cons, List.map_cons, List.find?_cons]
    by_cases hp : p (f a) <;> simp [hp, ih]

theorem find?_flatMap {α β : Type} (xs : List α) (g : α → List β) (p : β → Bool) :
    (xs.flatMap g).find? p = xs.findSome? (fun x => (g x).find? p) := by
  induction xs with
  | nil => rfl
  | cons x xs ih =>
    rw [List.flatMap_cons, List.find?_append, List.findSome?_cons, ih]
    cases h : (g x).find? p <;> simp [Option.or, h]

theorem tierSearch_eq_find? (seeds : Nat → Nat → Nat → Nat) (s : Store) (len : Nat) :
    tierSearch seeds s len =
      ((List.range 10).map (fun a => generate_short_code (seeds len a) len)).find?
        (fun c => !code_exists s c) := by
  unfold tierSearch
  exact findSome?_guard_eq_find? _ _ _

theorem find_available_eq_spec (seeds : Nat → Nat → Nat → Nat) (s : Store) :
    find_available_code seeds s =
      match (specCandidates seeds).find? (fun c => !code_exists s c) with
      | some code => code
      | none => generate_short_code (seeds (MAX_CODE_LENGTH + 1) 0) MAX_CODE_LENGTH := by
  unfold find_available_code specCandidates
  rw [find?_flatMap]
  have h : tierSearch seeds s = fun len =>
      ((List.range 10).map (fun a => generate_short_code (seeds len a) len)).find?
        (fun c => !code_exists s c) := funext (tierSearch_eq_find? seeds s)
  rw [h]

theorem mem_specCandidates {seeds : Nat → Nat → Nat → Nat} {c : String}
    (h : c ∈ specCandidates seeds) :
    ∃ len a, MIN_CODE_LENGTH ≤ len ∧ len ≤ MAX_CODE_LENGTH ∧ a < 10 ∧
      c = generate_short_code (seeds len a) len := by
  unfold specCandidates at h
  obtain ⟨len, hlen, hc⟩ := List.mem_flatMap.mp h
  obtain ⟨a, ha, hca⟩ := List.mem_map.mp hc
  obtain ⟨i, hi, hlen'⟩ := List.mem_range'.mp hlen
  refine ⟨len, a, ?_, ?_, List.mem_range.mp ha, hca.symm⟩ <;>
    simp [MIN_CODE_LENGTH, MAX_CODE_LENGTH] at * <;> omega

theorem find_avail_generated (seeds : Nat → Nat → Nat → Nat) (s : Store) :
    ∃ sd len, MIN_CODE_LENGTH ≤ len ∧ len ≤ MAX_CODE_LENGTH ∧
      find_available_code seeds s = generate_short_code sd len := by
  rw [find_available_eq_spec]
  cases hfind : (specCandidates seeds).find? (fun c => !code_exists s c) with
  | none => exact ⟨seeds (MAX_CODE_LENGTH + 1) 0, MAX_CODE_LENGTH, by decide, le_refl _, rfl⟩
  | some c =>
    obtain ⟨len, a, h1, h2, _, hgen⟩ :=
      mem_specCandidates (List.mem_of_find?_eq_some hfind)
    exact ⟨seeds len a, len, h1, h2, hgen⟩

theorem pyLower_find_avail (seeds : Nat → Nat → Nat → Nat) (s : Store) :
    pyLower (find_available_code seeds s) = find_available_code seeds s := by
  obtain ⟨sd, len, _, _, hgen⟩ := find_avail_generated seeds s
  rw [hgen]
  exact pyLower_generate sd len

/-! ## Structure of `create_short_url` on a reachable store -/

theorem finishInsert_ok {s s' : Store} {code url : String} {ip : Option String}
    {now : Nat} {r : CreateResult}
    (h : finishInsert s code url ip now = .ok (s', r)) :
    code_exists s code = false ∧
    s' = s ++ [⟨s.length, code, url, 0, now, none, ip⟩] ∧
    r = .created ⟨s.length, code, url, 0, now, none, ip⟩ := by
  unfold finishInsert insert_row at h
  by_cases hex : code_exists s code
  · rw [if_pos hex] at h
    simp at h
  · rw [if_neg hex] at h
    simp only [Except.ok.injEq, Prod.mk.injEq] at h
    exact ⟨by simpa using hex, h.1.symm, h.2.symm⟩

theorem create_ok_cases {s s' : Store} {long_url : String}
    {custom_code : Option String} {client_ip : Option String}
    {seeds : Nat → Nat → Nat → Nat} {now : Nat} {r : CreateResult}
    (h : create_short_url ⟨true, s⟩ long_url custom_code client_ip seeds now = .ok (s', r)) :
    (∃ c, custom_code = some c ∧ c ≠ "" ∧ code_exists s (pyLower c) = true ∧
      s' = s ∧ r = .codeTaken c) ∨
    (∃ code, code_exists s code = false ∧
      (pyLower code = code) ∧
      s' = s ++ [⟨s.length, code, long_url, 0, now, none, client_ip⟩] ∧
      r = .created ⟨s.length, code, long_url, 0, now, none, client_ip⟩) := by
  unfold create_short_url at h
  rw [if_pos (by trivial)] at h
  match custom_code with
  | some c =>
    dsimp only at h
    by_cases hce : c = ""
    · rw [if_pos hce] at h
      obtain ⟨hex, hs, hr⟩ := finishInsert_ok h
      exact Or.inr ⟨_, hex, pyLower_find_avail seeds s, hs, hr⟩
    · rw [if_neg hce] at h
      by_cases hex : code_exists s (pyLower c)
      · rw [if_pos hex] at h
        simp only [Except.ok.injEq, Prod.mk.injEq] at h
        exact Or.inl ⟨c, rfl, hce, hex, h.1.symm, h.2.symm⟩
      · rw [if_neg hex] at h
        obtain ⟨hex', hs, hr⟩ := finishInsert_ok h
        exact Or.inr ⟨pyLower c, hex', pyLower_idem c, hs, hr⟩
  | none =>
    dsimp only at h
    obtain ⟨hex, hs, hr⟩ := finishInsert_ok h
    exact Or.inr ⟨_, hex, pyLower_find_avail seeds s, hs, hr⟩

/-! ## The uniqueness invariant -/

theorem storeInv_nil : StoreInv [] := ⟨by simp, List.Pairwise.nil⟩

theorem storeInv_append {s : Store} {link : Link}
    (inv : StoreInv s) (hfix : pyLower link.short_code = link.short_code)
    (hnew : code_exists s link.short_code = false) : StoreInv (s ++ [link]) := by
  obtain ⟨h1, h2⟩ := inv
  have hall := (code_exists_false_iff _ _).mp hnew
  constructor
  · intro l hl
    rcases List.mem_append.mp hl with hl | hl
    · exact h1 l hl
    · simp only [List.mem_singleton] at hl
      subst hl
      exact hfix
  · rw [List.pairwise_append]
    refine ⟨h2, by simp, ?_⟩
    intro a ha b hb
    simp only [List.mem_singleton] at hb
    subst hb
    intro hcon
    rw [h1 a ha, hfix] at hcon
    exact hall a ha hcon

theorem storeInv_map_preserving {s : Store} {f : Link → Link}
    (hf : ∀ l, (f l).short_code = l.short_code) (inv : StoreInv s) :
    StoreInv (s.map f) := by
  obtain ⟨h1, h2⟩ := inv
  constructor
  · intro l hl
    obtain ⟨x, hx, hfx⟩ := List.mem_map.mp hl
    rw [← hfx, hf]
    exact h1 x hx
  · rw [List.pairwise_map]
    exact h2.imp (fun hab => by rwa [hf, hf])

theorem storeInv_create {s s' : Store} {long_url : String} {custom_code : Option String}
    {client_ip : Option String} {seeds : Nat → Nat → Nat → Nat} {now : Nat} {r : CreateResult}
    (inv : StoreInv s)
    (h : create_short_url ⟨true, s⟩ long_url custom_code client_ip seeds now = .ok (s', r)) :
    StoreInv s' := by
  rcases create_ok_cases h with ⟨c, _, _, _, hs, _⟩ | ⟨code, hex, hfix, hs, _⟩
  · exact hs ▸ inv
  · subst hs
    exact storeInv_append inv hfix hex

theorem storeInv_step {s : Store} (op : Op) (inv : StoreInv s) : StoreInv (step s op) := by
  cases op with
  | createOp u cc ip seeds now =>
    simp only [step]
    cases h : create_short_url ⟨true, s⟩ u cc ip seeds now with
    | ok p =>
      obtain ⟨s', r⟩ := p
      exact storeInv_create inv h
    | error e => exact inv
  | resolveOp code now =>
    simp only [step, get_long_url_up]
    exact storeInv_map_preserving (clickUpdate_code _ _) inv

theorem storeInv_runOps {s : Store} (ops : List Op) (inv : StoreInv s) :
    StoreInv (runOps s ops) := by
  induction ops generalizing s with
  | nil => exact inv
  | cons op ops ih => exact ih (storeInv_step op inv)

/-! ## Click counts along a history -/

theorem step_lookup_create {s : Store} {c : String} {l : Link}
    (hl : lookupCode s c = some l) (u : String) (cc : Option String) (ip : Option String)
    (seeds : Nat → Nat → Nat → Nat) (now : Nat) :
    lookupCode (step s (.createOp u cc ip seeds now)) c = some l := by
  simp only [step]
  cases h : create_short_url ⟨true, s⟩ u cc ip seeds now with
  | error e => exact hl
  | ok p =>
    obtain ⟨s', r⟩ := p
    rcases create_ok_cases h with ⟨_, _, _, _, hs, _⟩ | ⟨code, _, _, hs, _⟩
    · exact hs ▸ hl
    · subst hs
      exact lookupCode_append_left _ hl

theorem step_lookup_resolve {s : Store} {c : String} {l : Link}
    (hl : lookupCode s c = some l) (code : String) (now : Nat) :
    (pyLower code = c →
      lookupCode (step s (.resolveOp code now)) c = some (bumpClick now l)) ∧
    (pyLower code ≠ c →
      lookupCode (step s (.resolveOp code now)) c = some l) := by
  have hstep : step s (.resolveOp code now) = s.map (clickUpdate (pyLower code) now) := by
    simp only [step, get_long_url_up]
  constructor
  · intro hc
    rw [hstep, lookupCode_map_preserving (clickUpdate_code _ _), hl]
    simp [clickUpdate, lookupCode_code hl, hc]
  · intro hc
    rw [hstep, lookupCode_map_preserving (clickUpdate_code _ _), hl]
    simp [clickUpdate, lookupCode_code hl, Ne.symm hc]

theorem resolveSucceeded_iff (s : Store) (code : String) (now : Nat) :
    resolveSucceeded s code now = (lookupCode s (pyLower code)).isSome := by
  unfold resolveSucceeded
  rw [get_long_url_up]
  cases lookupCode s (pyLower code) <;> rfl

theorem clickCount_runOps {c : String} :
    ∀ (ops : List Op) (s : Store) (l : Link), lookupCode s c = some l →
      clickCountOf (runOps s ops) c = some (l.click_count + succResolves c s ops) := by
  intro ops
  induction ops with
  | nil =>
    intro s l hl
    simp [runOps, succResolves, clickCountOf, hl]
  | cons op ops ih =>
    intro s l hl
    have hrun : runOps s (op :: ops) = runOps (step s op) ops := rfl
    rw [hrun]
    cases op with
    | createOp u cc ip seeds now =>
      rw [ih _ _ (step_lookup_create hl u cc ip seeds now)]
      simp [succResolves]
    | resolveOp code now =>
      by_cases hc : pyLower code = c
      · rw [ih _ _ ((step_lookup_resolve hl code now).1 hc)]
        have hsucc : resolveSucceeded s code now = true := by
          rw [resolveSucceeded_iff, hc, hl]
          rfl
        have hcount : succResolves c s (Op.resolveOp code now :: ops) =
            1 + succResolves c (step s (Op.resolveOp code now)) ops := by
          simp [succResolves, hc, hsucc]
        rw [hcount]
        have hbump : (bumpClick now l).click_count = l.click_count + 1 := rfl
        rw [hbump, Option.some.injEq]
        omega
      · rw [ih _ _ ((step_lookup_resolve hl code now).2 hc)]
        simp [succResolves, hc]

theorem clickCount_replicate {s : Store} {c : String} {l : Link} (now : Nat) (N : Nat)
    (hl : lookupCode s c = some l) (hc : pyLower c = c) :
    clickCountOf (runOps s (List.replicate N (Op.resolveOp c now))) c =
      some (l.click_count + N) := by
  induction N generalizing s l with
  | zero => simp [runOps, clickCountOf, hl]
  | succ n ih =>
    rw [List.replicate_succ]
    have hrun : runOps s (Op.resolveOp c now :: List.replicate n (Op.resolveOp c now)) =
        runOps (step s (Op.resolveOp c now)) (List.replicate n (Op.resolveOp c now)) := rfl
    have hbump : (bumpClick now l).click_count = l.click_count + 1 := rfl
    rw [hrun, ih ((step_lookup_resolve hl c now).1 hc), hbump, Option.some.injEq]
    omega

/-! ## Direct computations of `create_short_url` on the custom-code paths -/

theorem create_custom_taken {s : Store} {custom : String} (long_url : String)
    (client_ip : Option String) (seeds : Nat → Nat → Nat → Nat) (now : Nat)
    (hne : custom ≠ "") (hex : code_exists s (pyLower custom) = true) :
    create_short_url ⟨true, s⟩ long_url (some custom) client_ip seeds now =
      .ok (s, .codeTaken custom) := by
  unfold create_short_url
  rw [if_pos (by trivial)]
  dsimp only
  rw [if_neg hne, if_pos hex]

theorem create_custom_free {s : Store} {custom : String} (long_url : String)
    (client_ip : Option String) (seeds : Nat → Nat → Nat → Nat) (now : Nat)
    (hne : custom ≠ "") (hex : code_exists s (pyLower custom) = false) :
    create_short_url ⟨true, s⟩ long_url (some custom) client_ip seeds now =
      .ok (s ++ [⟨s.length, pyLower custom, long_url, 0, now, none, client_ip⟩],
           .created ⟨s.length, pyLower custom, long_url, 0, now, none, client_ip⟩) := by
  unfold create_short_url
  rw [if_pos (by trivial)]
  dsimp only
  rw [if_neg hne, if_neg (by simp [hex])]
  unfold finishInsert insert_row
  rw [if_neg (by simp [hex])]

theorem create_random_eq {s : Store} (long_url : String) (client_ip : Option String)
    (seeds : Nat → Nat → Nat → Nat) (now : Nat) :
    create_short_url ⟨true, s⟩ long_url none client_ip seeds now =
      finishInsert s (find_available_code seeds s) long_url client_ip now := by
  unfold create_short_url
  rw [if_pos (by trivial)]

theorem create_down (s : Store) (long_url : String) (custom_code : Option String)
    (client_ip : Option String) (seeds : Nat → Nat → Nat → Nat) (now : Nat) :
    create_short_url ⟨false, s⟩ long_url custom_code client_ip seeds now =
      .error .unavailable := rfl

/-! ## Row counting -/

theorem code_exists_append_self (s : Store) (link : Link) :
    code_exists (s ++ [link]) link.short_code = true := by
  simp [code_exists, List.any_append]

theorem rowCount_append_self (s : Store) (link : Link) {c : String}
    (hc : link.short_code = c) : rowCount (s ++ [link]) c = rowCount s c + 1 := by
  unfold rowCount
  rw [List.filter_append]
  simp [hc]

theorem rowCount_zero_of_not_exists {s : Store} {c : String}
    (h : code_exists s c = false) : rowCount s c = 0 := by
  unfold rowCount
  have hnil : s.filter (fun l => l.short_code == c) = [] := by
    rw [List.filter_eq_nil_iff]
    intro a ha
    simp [(code_exists_false_iff _ _).mp h a ha]
  rw [hnil]
  rfl

/-! ## The two shorten routes -/

theorem api_shorten_eq_shorten : @api_shorten = @shorten := rfl

theorem shorten_created {db : DB} {urlField codeField client_ip : String}
    {seeds : Nat → Nat → Nat → Nat} {now : Nat} {s' : Store} {link : Link}
    (h : shorten db urlField codeField client_ip seeds now =
      .ok (s', .result (.created link))) :
    link.long_url = normalizeScheme (pyStrip urlField) ∧ link ∈ s' := by
  unfold shorten at h
  by_cases hemp : pyStrip urlField = ""
  · rw [if_pos hemp] at h
    simp at h
  · rw [if_neg hemp] at h
    obtain ⟨up, s⟩ := db
    cases up with
    | false =>
      rw [create_down] at h
      simp at h
    | true =>
      cases hc : create_short_url ⟨true, s⟩ (normalizeScheme (pyStrip urlField))
          (if pyStrip codeField = "" then none else some (pyStrip codeField))
          (some client_ip) seeds now with
      | error e =>
        rw [hc] at h
        simp at h
      | ok p =>
        obtain ⟨s₀, r₀⟩ := p
        rw [hc] at h
        simp only [Except.ok.injEq, Prod.mk.injEq] at h
        obtain ⟨hs, hr⟩ := h
        subst hs
        rcases create_ok_cases hc with ⟨_, _, _, _, _, hrr⟩ | ⟨code, _, _, hs0, hrr⟩
        · rw [hrr] at hr
          simp at hr
        · rw [hrr] at hr
          have hlink : link = ⟨s.length, code, normalizeScheme (pyStrip urlField),
              0, now, none, some client_ip⟩ := by
            cases hr
            rfl
          subst hs0
          constructor
          · rw [hlink]
          · rw [hlink]
            exact List.mem_append_right _ (by simp)

/-! ## Claim theorems -/

/-- C1: short-code uniqueness is an invariant of the store: under the
storage-layer uniqueness constraint of spec section 4.3 (modelled in
`insert_row`), any two distinct stored rows have different lowercase-normalised
short codes, every operation — in particular every allocation, including the
random path that exhausts all length tiers and falls back to one unconditional
candidate at the maximum length, whose colliding insert is rejected by the
constraint — preserves this, and it holds of every store reachable from the
empty one. -/
theorem C1_short_code_uniqueness :
    (∀ (s : Store) (op : Op), StoreInv s → StoreInv (step s op)) ∧
    (∀ (s s' : Store) (long_url : String) (custom_code : Option String)
       (client_ip : Option String) (seeds : Nat → Nat → Nat → Nat) (now : Nat)
       (r : CreateResult), StoreInv s →
       create_short_url ⟨true, s⟩ long_url custom_code client_ip seeds now = .ok (s', r) →
       StoreInv s') ∧
    (∀ (s : Store) (long_url : String) (client_ip : Option String)
       (seeds : Nat → Nat → Nat → Nat) (now : Nat),
       (∀ c ∈ specCandidates seeds, code_exists s c = true) →
       code_exists s (generate_short_code (seeds (MAX_CODE_LENGTH + 1) 0) MAX_CODE_LENGTH)
         = true →
       create_short_url ⟨true, s⟩ long_url none client_ip seeds now =
         .error .duplicateCode) ∧
    (∀ ops : List Op, StoreInv (runOps [] ops)) := by
  refine ⟨fun s op inv => storeInv_step op inv,
          fun s s' u cc ip seeds now r inv h => storeInv_create inv h,
          ?_, fun ops => storeInv_runOps ops storeInv_nil⟩
  intro s u ip seeds now hall hfb
  have hfa : find_available_code seeds s =
      generate_short_code (seeds (MAX_CODE_LENGTH + 1) 0) MAX_CODE_LENGTH := by
    rw [find_available_eq_spec]
    have hnone : (specCandidates seeds).find? (fun c => !code_exists s c) = none := by
      rw [List.find?_eq_none]
      intro c hc
      simp [hall c hc]
    rw [hnone]
  have hins : insert_row s (find_available_code seeds s) u ip now =
      .error .duplicateCode := by
    unfold insert_row
    rw [hfa, if_pos hfb]
  rw [create_random_eq]
  unfold finishInsert
  rw [hins]

/-- Witness for C1 at a concrete store and operation. -/
theorem C1_short_code_uniqueness_witness :
    StoreInv [(⟨0, "ab", "https://example.org", 0, 0, none, none⟩ : Link)] ∧
    StoreInv (step [(⟨0, "ab", "https://example.org", 0, 0, none, none⟩ : Link)]
      (Op.resolveOp "ab" 3)) :=
  ⟨by unfold StoreInv; decide,
   C1_short_code_uniqueness.1 _ (Op.resolveOp "ab" 3) (by unfold StoreInv; decide)⟩

/-- C2: a successful resolution returns the stored `long_url` of the looked-up
row, adds exactly 1 to its `click_count`, sets `last_clicked` to the
resolution instant and changes no other code's row; `click_count` starts at 0
on creation; and along any history of operations the click count of a present
code equals its initial count plus the number of successful resolutions of
that code. -/
theorem C2_click_count_semantics :
    (∀ (s : Store) (code : String) (l : Link) (now : Nat),
       lookupCode s (pyLower code) = some l →
       get_long_url ⟨true, s⟩ code now =
         .ok (s.map (clickUpdate (pyLower code) now), some l.long_url) ∧
       clickCountOf (s.map (clickUpdate (pyLower code) now)) (pyLower code) =
         some (l.click_count + 1) ∧
       lastClickedOf (s.map (clickUpdate (pyLower code) now)) (pyLower code) =
         some (some now) ∧
       (∀ d, d ≠ pyLower code →
         lookupCode (s.map (clickUpdate (pyLower code) now)) d = lookupCode s d)) ∧
    (∀ (s s' : Store) (long_url : String) (custom_code : Option String)
       (client_ip : Option String) (seeds : Nat → Nat → Nat → Nat) (now : Nat)
       (link : Link),
       create_short_url ⟨true, s⟩ long_url custom_code client_ip seeds now =
         .ok (s', .created link) →
       link.click_count = 0) ∧
    (∀ (s : Store) (ops : List Op) (c : String) (l : Link),
       lookupCode s c = some l →
       clickCountOf (runOps s ops) c = some (l.click_count + succResolves c s ops)) := by
  refine ⟨?_, ?_, fun s ops c l hl => clickCount_runOps ops s l hl⟩
  · intro s code l now hl
    obtain ⟨h1, h2, h3⟩ := resolve_found now hl
    refine ⟨h1, ?_, ?_, h3⟩
    · unfold clickCountOf
      rw [h2]
      rfl
    · unfold lastClickedOf
      rw [h2]
      rfl
  · intro s s' u cc ip seeds now link h
    rcases create_ok_cases h with ⟨_, _, _, _, _, hr⟩ | ⟨code, _, _, _, hr⟩
    · simp at hr
    · cases hr
      rfl

/-- Witness for C2 at a concrete store and history. -/
theorem C2_click_count_semantics_witness :
    clickCountOf (runOps [(⟨0, "ab", "https://example.org", 0, 0, none, none⟩ : Link)]
      [Op.resolveOp "ab" 5, Op.resolveOp "zz" 6]) "ab" = some 1 := by
  have h := C2_click_count_semantics.2.2
    [(⟨0, "ab", "https://example.org", 0, 0, none, none⟩ : Link)]
    [Op.resolveOp "ab" 5, Op.resolveOp "zz" 6] "ab"
    ⟨0, "ab", "https://example.org", 0, 0, none, none⟩ (by decide)
  exact h.trans (by decide)

/-- C3: resolving an unknown code or any reserved code (`favicon.ico`,
`robots.txt`, `health`, `api`) yields 404 and mutates no row; in particular
resolving the exact segment `health` is always 404, whatever the store
holds. -/
theorem C3_reserved_and_unknown_not_found :
    (∀ (db : DB) (code : String) (now : Nat), code ∈ RESERVED_CODES →
       redirect_url db code now = .ok (db.store, .notFound404)) ∧
    (∀ (s : Store) (code : String) (now : Nat), lookupCode s (pyLower code) = none →
       redirect_url ⟨true, s⟩ code now = .ok (s, .notFound404)) ∧
    (∀ (db : DB) (now : Nat), redirect_url db "health" now = .ok (db.store, .notFound404)) := by
  have hres : ∀ (db : DB) (code : String) (now : Nat), code ∈ RESERVED_CODES →
      redirect_url db code now = .ok (db.store, .notFound404) := by
    intro db code now hmem
    unfold redirect_url
    rw [if_pos hmem]
  refine ⟨hres, ?_, fun db now => hres db "health" now (by decide)⟩
  intro s code now hl
  by_cases hmem : code ∈ RESERVED_CODES
  · exact hres ⟨true, s⟩ code now hmem
  · unfold redirect_url
    rw [if_neg hmem, resolve_miss now hl]

/-- Witness for C3 at a concrete store and codes. -/
theorem C3_reserved_and_unknown_not_found_witness :
    redirect_url ⟨true, [(⟨0, "alive", "https://example.org", 0, 0, none, none⟩ : Link)]⟩
      "nope" 1 =
      .ok ([(⟨0, "alive", "https://example.org", 0, 0, none, none⟩ : Link)], .notFound404) :=
  C3_reserved_and_unknown_not_found.2.1
    [(⟨0, "alive", "https://example.org", 0, 0, none, none⟩ : Link)] "nope" 1 (by decide)

/-- C4: a custom allocation whose lowercase form is already stored fails
in-band with the code-taken error and leaves the store exactly as it was; a
free custom code is stored lowercased; and allocating the same custom code
twice leaves exactly one row for it, the second call reporting it taken. -/
theorem C4_custom_code_taken :
    (∀ (s : Store) (long_url custom : String) (client_ip : Option String)
       (seeds : Nat → Nat → Nat → Nat) (now : Nat), custom ≠ "" →
       code_exists s (pyLower custom) = true →
       create_short_url ⟨true, s⟩ long_url (some custom) client_ip seeds now =
         .ok (s, .codeTaken custom)) ∧
    (∀ (s : Store) (long_url custom : String) (client_ip : Option String)
       (seeds : Nat → Nat → Nat → Nat) (now : Nat), custom ≠ "" →
       code_exists s (pyLower custom) = false →
       create_short_url ⟨true, s⟩ long_url (some custom) client_ip seeds now =
         .ok (s ++ [⟨s.length, pyLower custom, long_url, 0, now, none, client_ip⟩],
              .created ⟨s.length, pyLower custom, long_url, 0, now, none, client_ip⟩)) ∧
    (∀ (s : Store) (u1 u2 custom : String) (ip1 ip2 : Option String)
       (seeds1 seeds2 : Nat → Nat → Nat → Nat) (now1 now2 : Nat), custom ≠ "" →
       code_exists s (pyLower custom) = false →
       create_short_url ⟨true, s⟩ u1 (some custom) ip1 seeds1 now1 =
         .ok (s ++ [⟨s.length, pyLower custom, u1, 0, now1, none, ip1⟩],
              .created ⟨s.length, pyLower custom, u1, 0, now1, none, ip1⟩) ∧
       create_short_url ⟨true, s ++ [⟨s.length, pyLower custom, u1, 0, now1, none, ip1⟩]⟩
           u2 (some custom) ip2 seeds2 now2 =
         .ok (s ++ [⟨s.length, pyLower custom, u1, 0, now1, none, ip1⟩], .codeTaken custom) ∧
       rowCount (s ++ [⟨s.length, pyLower custom, u1, 0, now1, none, ip1⟩])
           (pyLower custom) = 1) := by
  refine ⟨fun s u custom ip seeds now hne hex => create_custom_taken u ip seeds now hne hex,
          fun s u custom ip seeds now hne hex => create_custom_free u ip seeds now hne hex,
          ?_⟩
  intro s u1 u2 custom ip1 ip2 seeds1 seeds2 now1 now2 hne hex
  have hidem : pyLower (pyLower custom) = pyLower custom := pyLower_idem custom
  have hex2 : code_exists
      (s ++ [⟨s.length, pyLower custom, u1, 0, now1, none, ip1⟩]) (pyLower custom) = true := by
    have := code_exists_append_self s ⟨s.length, pyLower custom, u1, 0, now1, none, ip1⟩
    simpa using this
  refine ⟨create_custom_free u1 ip1 seeds1 now1 hne hex, ?_, ?_⟩
  · exact create_custom_taken u2 ip2 seeds2 now2 hne hex2
  · rw [rowCount_append_self s _ rfl, rowCount_zero_of_not_exists hex]

/-- Witness for C4: allocating `Promo` twice on an empty store. -/
theorem C4_custom_code_taken_witness :
    create_short_url ⟨true, []⟩ "https://a.example" (some "Promo") none (fun _ _ _ => 0) 0 =
      .ok ([(⟨0, "promo", "https://a.example", 0, 0, none, none⟩ : Link)],
           .created ⟨0, "promo", "https://a.example", 0, 0, none, none⟩) ∧
    create_short_url ⟨true, [(⟨0, "promo", "https://a.example", 0, 0, none, none⟩ : Link)]⟩
        "https://b.example" (some "Promo") none (fun _ _ _ => 0) 1 =
      .ok ([(⟨0, "promo", "https://a.example", 0, 0, none, none⟩ : Link)],
           .codeTaken "Promo") ∧
    rowCount [(⟨0, "promo", "https://a.example", 0, 0, none, none⟩ : Link)] "promo" = 1 := by
  have h := C4_custom_code_taken.2.2 [] "https://a.example" "https://b.example" "Promo"
    none none (fun _ _ _ => 0) (fun _ _ _ => 0) 0 1 (by decide) (by decide)
  exact ⟨h.1, h.2.1, h.2.2⟩

/-- C5: the random search escalates the candidate length from 2 to 6, drawing
up to 10 candidates per length in order and returning the first one absent
from the store; every candidate drawn at a tier has exactly that tier's
length; and when every candidate collides the search returns one further
maximum-length draw unconditionally, with no existence check on it. -/
theorem C5_escalating_length_search :
    ∀ (seeds : Nat → Nat → Nat → Nat) (s : Store),
      (find_available_code seeds s =
        match (specCandidates seeds).find? (fun c => !code_exists s c) with
        | some code => code
        | none => generate_short_code (seeds (MAX_CODE_LENGTH + 1) 0) MAX_CODE_LENGTH) ∧
      (∀ c ∈ specCandidates seeds, ∃ len a, MIN_CODE_LENGTH ≤ len ∧ len ≤ MAX_CODE_LENGTH ∧
        a < 10 ∧ c = generate_short_code (seeds len a) len ∧ c.length = len) ∧
      ((∀ c ∈ specCandidates seeds, code_exists s c = true) →
        find_available_code seeds s =
          generate_short_code (seeds (MAX_CODE_LENGTH + 1) 0) MAX_CODE_LENGTH) := by
  intro seeds s
  refine ⟨find_available_eq_spec seeds s, ?_, ?_⟩
  · intro c hc
    obtain ⟨len, a, h1, h2, h3, h4⟩ := mem_specCandidates hc
    exact ⟨len, a, h1, h2, h3, h4, by rw [h4]; exact generate_length _ _⟩
  · intro hall
    rw [find_available_eq_spec]
    have hnone : (specCandidates seeds).find? (fun c => !code_exists s c) = none := by
      rw [List.find?_eq_none]
      intro c hc
      simp [hall c hc]
    rw [hnone]

/-- Witness for C5: with constant-zero seeds every candidate is a run of `a`;
on a store holding all of them the search returns the unconditional fallback
`aaaaaa` even though it collides too. -/
theorem C5_escalating_length_search_witness :
    find_available_code (fun _ _ _ => 0)
      [(⟨0, "aa", "https://example.org", 0, 0, none, none⟩ : Link),
       ⟨1, "aaa", "https://example.org", 0, 0, none, none⟩,
       ⟨2, "aaaa", "https://example.org", 0, 0, none, none⟩,
       ⟨3, "aaaaa", "https://example.org", 0, 0, none, none⟩,
       ⟨4, "aaaaaa", "https://example.org", 0, 0, none, none⟩] = "aaaaaa" := by
  have h := (C5_escalating_length_search (fun _ _ _ => 0)
    [(⟨0, "aa", "https://example.org", 0, 0, none, none⟩ : Link),
     ⟨1, "aaa", "https://example.org", 0, 0, none, none⟩,
     ⟨2, "aaaa", "https://example.org", 0, 0, none, none⟩,
     ⟨3, "aaaaa", "https://example.org", 0, 0, none, none⟩,
     ⟨4, "aaaaaa", "https://example.org", 0, 0, none, none⟩]).2.2 (by decide)
  exact h.trans (by decide)

/-- C6: on both `POST /shorten` and `POST /api/shorten`, a stored URL is the
submitted one unchanged when it already starts with `http://` or `https://`,
and is the submitted one with `https://` prepended otherwise. -/
theorem C6_scheme_normalisation :
    ∀ (db : DB) (urlField codeField client_ip : String) (seeds : Nat → Nat → Nat → Nat)
      (now : Nat) (s' : Store) (link : Link),
      pyStrip urlField = urlField →
      (shorten db urlField codeField client_ip seeds now =
         .ok (s', .result (.created link)) ∨
       api_shorten db urlField codeField client_ip seeds now =
         .ok (s', .result (.created link))) →
      link.long_url =
        (if pyStarts urlField "http://" || pyStarts urlField "https://" then urlField
         else "https://" ++ urlField) ∧ link ∈ s' := by
  intro db urlField codeField ip seeds now s' link hstrip h
  have hcreated : link.long_url = normalizeScheme (pyStrip urlField) ∧ link ∈ s' := by
    rcases h with h | h
    · exact shorten_created h
    · rw [api_shorten_eq_shorten] at h
      exact shorten_created h
  refine ⟨?_, hcreated.2⟩
  rw [hcreated.1, hstrip]
  rfl

/-- Witness for C6: submitting `example.com` stores `https://example.com`. -/
theorem C6_scheme_normalisation_witness :
    (⟨0, "aa", "https://example.com", 0, 0, none, some "1.2.3.4"⟩ : Link).long_url =
      (if pyStarts "example.com" "http://" || pyStarts "example.com" "https://"
       then "example.com" else "https://" ++ "example.com") ∧
    (⟨0, "aa", "https://example.com", 0, 0, none, some "1.2.3.4"⟩ : Link) ∈
      [(⟨0, "aa", "https://example.com", 0, 0, none, some "1.2.3.4"⟩ : Link)] :=
  C6_scheme_normalisation ⟨true, []⟩ "example.com" "" "1.2.3.4" (fun _ _ _ => 0) 0
    [⟨0, "aa", "https://example.com", 0, 0, none, some "1.2.3.4"⟩]
    ⟨0, "aa", "https://example.com", 0, 0, none, some "1.2.3.4"⟩
    (by decide) (Or.inl (by rfl))

/-- C7 counterexample: `create_short_url` accepts the custom code `x` without
any length or alphabet validation, storing a short code of length 1 — so it is
false that every stored short code is between 2 and 20 characters long. -/
theorem C7_counterexample_short_custom_code :
    create_short_url ⟨true, []⟩ "https://example.com" (some "x") none (fun _ _ _ => 0) 0 =
      .ok ([(⟨0, "x", "https://example.com", 0, 0, none, none⟩ : Link)],
           .created ⟨0, "x", "https://example.com", 0, 0, none, none⟩) ∧
    (⟨0, "x", "https://example.com", 0, 0, none, none⟩ : Link).short_code.length < 2 :=
  ⟨rfl, by decide⟩

/-- C7 (amended): codes from the random generator have exactly the requested
length, draw only from the lowercase letters-and-digits alphabet and are
lowercase-fixed; every code stored by the random allocation path has length
between 2 and 6 (hence within 2-20), alphabet characters only, and is
lowercase; an accepted custom code is stored as the lowercased user input,
with no alphabet or length validation applied to it. -/
theorem C7_code_wellformedness :
    (∀ (seed : Nat → Nat) (n : Nat), (generate_short_code seed n).length = n ∧
       (∀ c ∈ (generate_short_code seed n).data, c ∈ alphabetChars) ∧
       pyLower (generate_short_code seed n) = generate_short_code seed n) ∧
    (∀ (s s' : Store) (long_url : String) (client_ip : Option String)
       (seeds : Nat → Nat → Nat → Nat) (now : Nat) (link : Link),
       create_short_url ⟨true, s⟩ long_url none client_ip seeds now =
         .ok (s', .created link) →
       2 ≤ link.short_code.length ∧ link.short_code.length ≤ 6 ∧
       (∀ c ∈ link.short_code.data, c ∈ alphabetChars) ∧
       pyLower link.short_code = link.short_code) ∧
    (∀ (s s' : Store) (long_url custom : String) (client_ip : Option String)
       (seeds : Nat → Nat → Nat → Nat) (now : Nat) (link : Link), custom ≠ "" →
       create_short_url ⟨true, s⟩ long_url (some custom) client_ip seeds now =
         .ok (s', .created link) →
       link.short_code = pyLower custom) := by
  refine ⟨fun seed n => ⟨generate_length seed n, generate_mem_alphabet seed n,
      pyLower_generate seed n⟩, ?_, ?_⟩
  · intro s s' u ip seeds now link h
    rw [create_random_eq] at h
    obtain ⟨_, _, hr⟩ := finishInsert_ok h
    have hcode : link.short_code = find_available_code seeds s := by
      cases hr
      rfl
    obtain ⟨sd, len, h1, h2, hgen⟩ := find_avail_generated seeds s
    rw [hcode, hgen]
    refine ⟨?_, ?_, generate_mem_alphabet sd len, pyLower_generate sd len⟩
    · rw [generate_length]
      exact h1
    · rw [generate_length]
      exact h2
  · intro s s' u custom ip seeds now link hne h
    by_cases hex : code_exists s (pyLower custom) = true
    · rw [create_custom_taken u ip seeds now hne hex] at h
      simp at h
    · rw [create_custom_free u ip seeds now hne (by simpa using hex)] at h
      simp only [Except.ok.injEq, Prod.mk.injEq, CreateResult.created.injEq] at h
      rw [← h.2]

/-- Witness for C7 (amended) on a concrete random allocation. -/
theorem C7_code_wellformedness_witness :
    2 ≤ (⟨0, "aa", "https://example.org", 0, 0, none, none⟩ : Link).short_code.length ∧
    (⟨0, "aa", "https://example.org", 0, 0, none, none⟩ : Link).short_code.length ≤ 6 ∧
    (∀ c ∈ (⟨0, "aa", "https://example.org", 0, 0, none, none⟩ : Link).short_code.data,
      c ∈ alphabetChars) ∧
    pyLower (⟨0, "aa", "https://example.org", 0, 0, none, none⟩ : Link).short_code =
      (⟨0, "aa", "https://example.org", 0, 0, none, none⟩ : Link).short_code :=
  C7_code_wellformedness.2.1 [] [⟨0, "aa", "https://example.org", 0, 0, none, none⟩]
    "https://example.org" none (fun _ _ _ => 0) 0
    ⟨0, "aa", "https://example.org", 0, 0, none, none⟩ (by rfl)

/-- C8 counterexample: with the store unreachable, `GET /api/stats` does not
degrade to an empty list and zero counts — the failure propagates out of the
handler (there is no `try/except` in `api_stats`, unlike `home`). -/
theorem C8_counterexample_api_stats_propagates :
    api_stats ⟨false, []⟩ "203.0.113.9" = .error .unavailable := rfl

/-- C8 (amended): when the durable store is unavailable the home-page stats
block degrades gracefully to an empty list and zero counts, while a store
failure on `GET /api/stats` propagates as an error to the caller, as does a
store failure on the allocation (write) path. -/
theorem C8_read_path_degradation :
    (∀ (s : Store) (client_ip : String), home_stats ⟨false, s⟩ client_ip = ⟨[], 0, 0⟩) ∧
    (∀ (s : Store) (client_ip : String),
       api_stats ⟨false, s⟩ client_ip = .error .unavailable) ∧
    (∀ (s : Store) (long_url : String) (custom_code : Option String)
       (client_ip : Option String) (seeds : Nat → Nat → Nat → Nat) (now : Nat),
       create_short_url ⟨false, s⟩ long_url custom_code client_ip seeds now =
         .error .unavailable) :=
  ⟨fun _ _ => rfl, fun _ _ => rfl, fun _ _ _ _ _ _ => rfl⟩

/-- C9: each resolution is the single atomic store-level read-modify-write
`UPDATE ... SET click_count = click_count + 1 ... RETURNING`, so a history of
N such atomic steps on the same stored code — any interleaving of N concurrent
resolutions — loses no increment: the final count is the initial count plus
N. -/
theorem C9_no_lost_increments :
    ∀ (s : Store) (c : String) (l : Link) (now N : Nat),
      lookupCode s c = some l → pyLower c = c →
      clickCountOf (runOps s (List.replicate N (Op.resolveOp c now))) c =
        some (l.click_count + N) :=
  fun _ _ _ now N hl hc => clickCount_replicate now N hl hc

/-- Witness for C9: five resolutions of a code with initial count 2 end at 7. -/
theorem C9_no_lost_increments_witness :
    clickCountOf (runOps [(⟨0, "ab", "https://example.org", 2, 0, none, none⟩ : Link)]
      (List.replicate 5 (Op.resolveOp "ab" 9))) "ab" = some 7 := by
  have h := C9_no_lost_increments [⟨0, "ab", "https://example.org", 2, 0, none, none⟩]
    "ab" ⟨0, "ab", "https://example.org", 2, 0, none, none⟩ 9 5 (by decide) (by decide)
  exact h.trans (by decide)

/-- C10: the reserved-name short-circuit compares the raw path segment before
any case normalisation, while allocation never rejects reserved names and the
store lookup lowercases; hence a custom allocation may store a reserved name,
and resolving any variant of a reserved name that is not an exact lowercase
match is not short-circuited: it performs the normal lookup-and-increment of
the lowercased code and redirects when that code is stored. -/
theorem C10_mixed_case_reserved_resolves :
    (∀ (s : Store) (long_url c : String) (client_ip : Option String)
       (seeds : Nat → Nat → Nat → Nat) (now : Nat),
       c ∈ RESERVED_CODES → code_exists s c = false →
       create_short_url ⟨true, s⟩ long_url (some c) client_ip seeds now =
         .ok (s ++ [⟨s.length, c, long_url, 0, now, none, client_ip⟩],
              .created ⟨s.length, c, long_url, 0, now, none, client_ip⟩)) ∧
    (∀ (s : Store) (code : String) (l : Link) (now : Nat),
       code ∉ RESERVED_CODES → lookupCode s (pyLower code) = some l →
       redirect_url ⟨true, s⟩ code now =
         .ok (s.map (clickUpdate (pyLower code) now), .redirect302 l.long_url) ∧
       clickCountOf (s.map (clickUpdate (pyLower code) now)) (pyLower code) =
         some (l.click_count + 1)) := by
  constructor
  · intro s u c ip seeds now hmem hex
    have hne : c ≠ "" := by
      simp only [RESERVED_CODES, List.mem_cons, List.not_mem_nil, or_false] at hmem
      rcases hmem with rfl | rfl | rfl | rfl <;> decide
    have hfix : pyLower c = c := by
      simp only [RESERVED_CODES, List.mem_cons, List.not_mem_nil, or_false] at hmem
      rcases hmem with rfl | rfl | rfl | rfl <;> decide
    have h := create_custom_free u ip seeds now hne (by rw [hfix]; exact hex)
    rwa [hfix] at h
  · intro s code l now hmem hl
    obtain ⟨h1, h2, _⟩ := resolve_found now hl
    constructor
    · unfold redirect_url
      rw [if_neg hmem, h1]
    · unfold clickCountOf
      rw [h2]
      rfl

/-- Witness for C10: with `health` stored via a custom allocation, resolving
`HEALTH` redirects and bumps the count instead of returning 404. -/
theorem C10_mixed_case_reserved_resolves_witness :
    redirect_url ⟨true, [(⟨0, "health", "https://example.org/h", 0, 0, none, none⟩ : Link)]⟩
        "HEALTH" 3 =
      .ok ([(⟨0, "health", "https://example.org/h", 1, 0, some 3, none⟩ : Link)],
           .redirect302 "https://example.org/h") ∧
    clickCountOf [(⟨0, "health", "https://example.org/h", 1, 0, some 3, none⟩ : Link)]
        "health" = some 1 := by
  have h := C10_mixed_case_reserved_resolves.2
    [(⟨0, "health", "https://example.org/h", 0, 0, none, none⟩ : Link)] "HEALTH"
    ⟨0, "health", "https://example.org/h", 0, 0, none, none⟩ 3 (by decide) (by decide)
  exact ⟨h.1.trans (by rfl), h.2.trans (by rfl)⟩

end Briskr
